import Mathlib

/-!
Verification of the core of the cpfyp multi-exchange market-data aggregator.

The C++ sources under src/cpp are shallowly embedded here:
  * std::string values are modelled as List Char; std::string::find, rfind,
    substr and the ad-hoc JSON helpers of the exchange clients are translated
    operation by operation.
  * double prices are modelled as exact rationals.  Every concrete price in
    the claims has an exact 8-fractional-digit decimal form, on which the
    double pipeline (std::stod followed by std::fixed/setprecision(8)
    printing) and the rational pipeline agree.
  * std::chrono time points are modelled by their Unix-epoch-millisecond
    count, which is the only observation to_json makes of them.
  * fallible C++ code (std::stod throwing, caught by the catch-all in each
    parse_message) is modelled with Except; the catch block is the match
    collapsing an error to the no-record result.
  * the asynchronous session state machine of websocket_client.cpp is
    modelled by a state record plus one transition per completion handler;
    the broadcaster of price_feed_server.cpp by a list of consumers whose
    per-broadcast write outcome is given by an oracle Bool.
-/

namespace Cpfyp

/-- Character-list form of a Lean string literal. -/
def lit (s : String) : List Char := s.data

/-- The left-brace character (written via its code point). -/
def lbrace : Char := '\x7b'

/-- The right-brace character (written via its code point). -/
def rbrace : Char := '\x7d'

/-- Digit character for a value below ten (the only use sites pass n % 10). -/
def digitChar : Nat → Char
  | 0 => '0'
  | 1 => '1'
  | 2 => '2'
  | 3 => '3'
  | 4 => '4'
  | 5 => '5'
  | 6 => '6'
  | 7 => '7'
  | 8 => '8'
  | 9 => '9'
  | _ + 10 => '?'

/-- Fuel-based decimal rendering of a natural number, most significant digit
first, as produced by operator<< on an integer. -/
def natReprAux : Nat → Nat → List Char
  | 0, _ => []
  | f + 1, n =>
    if n < 10 then [digitChar n]
    else natReprAux f (n / 10) ++ [digitChar (n % 10)]

/-- Decimal rendering of a natural number ("0" for zero, no leading zeros). -/
def natRepr (n : Nat) : List Char := natReprAux (n + 1) n

/-- Decimal rendering of an integer, with a leading minus sign if negative,
as produced by operator<< on a signed integer. -/
def intRepr (z : Int) : List Char :=
  if z < 0 then '-' :: natRepr z.natAbs else natRepr z.natAbs

/-- Exactly k decimal digits of n (its value modulo 10^k), zero padded, most
significant first. -/
def natDigitsPadded : Nat → Nat → List Char
  | 0, _ => []
  | k + 1, n => natDigitsPadded k (n / 10) ++ [digitChar (n % 10)]

/-- Rendering of a price by `oss << std::fixed << std::setprecision(8)`:
optional minus sign, the integer digits, a dot, then exactly eight
fractional digits.  The C++ stream rounds the double argument to eight
decimals; on the exact rationals modelling the prices this is rounding
half away from zero (no value in the development sits on a tie):
n below is the integer computation of the floor of |q| * 10^8 + 1/2,
since (2 * |num| * 10^8 + den) / (2 * den) in integer division is exactly
that floor for q = num / den. -/
def fixed8 (q : ℚ) : List Char :=
  let sgn : List Char := if q.num < 0 then ['-'] else []
  let n : Nat := (2 * q.num.natAbs * 100000000 + q.den) / (2 * q.den)
  sgn ++ natRepr (n / 100000000) ++ '.' :: natDigitsPadded 8 (n % 100000000)

/-- Normalized top-of-book record (price_update.hpp).  `timestamp` holds the
Unix epoch millisecond count that to_json extracts from the
std::chrono::system_clock::time_point. -/
structure PriceUpdate where
  exchange : List Char
  pair : List Char
  bid : ℚ
  ask : ℚ
  timestamp : Int
deriving DecidableEq

/-- PriceUpdate::to_json (price_update.cpp lines 7-21): a single
concatenation with no separators beyond those written by the code. -/
def to_json (u : PriceUpdate) : List Char :=
  lit "\x7b\"exchange\":\"" ++ u.exchange
    ++ lit "\",\"pair\":\"" ++ u.pair
    ++ lit "\",\"bid\":" ++ fixed8 u.bid
    ++ lit ",\"ask\":" ++ fixed8 u.ask
    ++ lit ",\"timestamp\":" ++ intRepr u.timestamp
    ++ [rbrace]

/-- The line written to every consumer by PriceFeedServer::broadcast_price
(price_feed_server.cpp line 43): the JSON object plus one LF. -/
def broadcastLine (u : PriceUpdate) : List Char := to_json u ++ ['\n']

/-! ### std::string primitives -/

/-- Whether `sub` occurs in `s` starting at index `i`. -/
def matchesAt (s sub : List Char) (i : Nat) : Bool := sub.isPrefixOf (s.drop i)

/-- Scan helper for strFind: first index ≥ i (over the suffix s) at which
sub occurs. -/
def findAux (sub : List Char) : List Char → Nat → Option Nat
  | [], i => if sub.isEmpty then some i else none
  | c :: rest, i =>
    if sub.isPrefixOf (c :: rest) then some i else findAux sub rest (i + 1)

/-- std::string::find(sub, pos): smallest index ≥ pos at which sub occurs,
none standing for npos. -/
def strFind (s sub : List Char) (pos : Nat) : Option Nat :=
  if pos ≤ s.length then findAux sub (s.drop pos) pos else none

/-- Scan helper for strRfind: largest index ≤ i at which sub occurs. -/
def rfindAux (s sub : List Char) : Nat → Option Nat
  | 0 => if matchesAt s sub 0 then some 0 else none
  | i + 1 => if matchesAt s sub (i + 1) then some (i + 1) else rfindAux s sub i

/-- std::string::rfind(sub, pos): largest index ≤ pos at which sub occurs,
none standing for npos (pos clamped to the length as in C++). -/
def strRfind (s sub : List Char) (pos : Nat) : Option Nat :=
  rfindAux s sub (min pos s.length)

/-- std::string::substr(pos, len) for in-range pos (every use site is). -/
def substrCpp (s : List Char) (pos len : Nat) : List Char :=
  (s.drop pos).take len

/-! ### std::stod -/

/-- Space characters skipped by strtod (isspace in the C locale). -/
def isStodSpace (c : Char) : Bool :=
  c = ' ' || c = '\t' || c = '\n' || c = '\x0b' || c = '\x0c' || c = '\r'

/-- Numeric value of a digit string read most significant first. -/
def digitsToNat (ds : List Char) : Nat :=
  ds.foldl (fun a c => 10 * a + (c.toNat - 48)) 0

/-- Exponent digits part: returns the signed exponent, or none when no
digit follows (in which case strtod leaves the exponent unconsumed and the
value unchanged). -/
def stodExpDigits (neg : Bool) (s : List Char) : Option Int :=
  let ds := s.takeWhile Char.isDigit
  if ds.isEmpty then none
  else some (if neg then -(digitsToNat ds : Int) else (digitsToNat ds : Int))

/-- Exponent part of strtod starting at the character after the mantissa:
0 when absent or malformed. -/
def stodExpPart (s : List Char) : Int :=
  match s with
  | c :: r =>
    if c = 'e' || c = 'E' then
      match r with
      | c2 :: r2 =>
        if c2 = '+' then (stodExpDigits false r2).getD 0
        else if c2 = '-' then (stodExpDigits true r2).getD 0
        else (stodExpDigits false r).getD 0
      | [] => 0
    else 0
  | [] => 0

/-- std::stod on the decimal forms arising here: leading C-locale
whitespace, optional sign, integer digits, optional fraction, optional
exponent.  Throws (modelled as .error) when no digit is found, exactly the
std::invalid_argument case; hex/inf/nan spellings and the out_of_range
overflow case do not arise from the quoted decimal price fields and are
not modelled.  The value (int.frac) * 10^exp is assembled with integer
arithmetic and mkRat, i.e. (int * 10^k + frac) * 10^exp / 10^k for k
fraction digits. -/
def stodQ (s : List Char) : Except Unit ℚ :=
  let s1 := s.dropWhile isStodSpace
  let neg := s1.head? = some '-'
  let s2 := if s1.head? = some '-' || s1.head? = some '+' then s1.tail else s1
  let ip := s2.takeWhile Char.isDigit
  let s3 := s2.dropWhile Char.isDigit
  let fp := if s3.head? = some '.' then s3.tail.takeWhile Char.isDigit else []
  let s4 := if s3.head? = some '.' then s3.tail.dropWhile Char.isDigit else s3
  if ip.isEmpty && fp.isEmpty then Except.error ()
  else
    let m : Nat := digitsToNat ip * 10 ^ fp.length + digitsToNat fp
    let e : Int := stodExpPart s4
    let num : Int := if neg then -(m : Int) else (m : Int)
    let v : ℚ :=
      if 0 ≤ e then mkRat (num * 10 ^ e.toNat) (10 ^ fp.length)
      else mkRat num (10 ^ fp.length * 10 ^ (-e).toNat)
    Except.ok v

/-! ### The ad-hoc JSON helpers shared by the exchange clients -/

/-- has_key helper (identical in binance/coinbase/bybit/okx clients):
whether the quoted key occurs anywhere in the message. -/
def has_key (j k : List Char) : Bool :=
  (strFind j ('"' :: k ++ ['"']) 0).isSome

/-- get_json_string helper (identical in binance/coinbase/bybit/okx
clients): find the quoted key, then a colon, then the next quoted run.
Every npos outcome yields the empty string, as in the C++ (the
pos == npos guard there fires before the unchecked end lookup is used). -/
def get_json_string (j k : List Char) : List Char :=
  match strFind j ('"' :: k ++ ['"']) 0 with
  | none => []
  | some p =>
    match strFind j [':'] p with
    | none => []
    | some pc =>
      match strFind j ['"'] pc with
      | none => []
      | some pq =>
        match strFind j ['"'] (pq + 1) with
        | none => []
        | some e => substrCpp j (pq + 1) (e - pq - 1)

/-- is_array helper (kraken_client.cpp lines 7-10): first character that is
not one of space, tab, LF, CR is an opening bracket. -/
def is_array (j : List Char) : Bool :=
  match j.dropWhile (fun c => c = ' ' || c = '\t' || c = '\n' || c = '\r') with
  | [] => false
  | c :: _ => c = '['

/-- Comma-skipping loop of get_nested_value: after `index` iterations of
pos = find(",", pos + 1). -/
def skipCommas (j : List Char) : Nat → Nat → Option Nat
  | pos, 0 => some pos
  | pos, i + 1 =>
    match strFind j [','] (pos + 1) with
    | none => none
    | some p => skipCommas j p i

/-- get_nested_value helper (kraken_client.cpp lines 12-27): find the quoted
key, an opening bracket, skip index commas, then take the next quoted run. -/
def get_nested_value (j k : List Char) (index : Nat) : List Char :=
  match strFind j ('"' :: k ++ ['"']) 0 with
  | none => []
  | some p =>
    match strFind j ['['] p with
    | none => []
    | some pb =>
      match skipCommas j pb index with
      | none => []
      | some pc =>
        match strFind j ['"'] pc with
        | none => []
        | some pq =>
          match strFind j ['"'] (pq + 1) with
          | none => []
          | some e => substrCpp j (pq + 1) (e - pq - 1)

/-! ### Symbol maps -/

/-- The five venues. -/
inductive Venue where
  | binance
  | kraken
  | coinbase
  | bybit
  | okx
deriving DecidableEq

/-- Venue label written into PriceUpdate.exchange (the name_ member). -/
def venueName : Venue → List Char
  | .binance => lit "Binance"
  | .kraken => lit "Kraken"
  | .coinbase => lit "Coinbase"
  | .bybit => lit "Bybit"
  | .okx => lit "OKX"

/-- Lookup in an association list, the observable behaviour of
std::map::find on the symbol maps. -/
def assocFind : List (List Char × List Char) → List Char → Option (List Char)
  | [], _ => none
  | (a, b) :: r, k => if k = a then some b else assocFind r k

/-- The four canonical pairs. -/
def canonicalPairs : List (List Char) :=
  [lit "BTC/USDT", lit "ETH/USDT", lit "SOL/USDT", lit "XRP/USDT"]

/-- pair_mapping_ per venue, in std::map key order (which coincides with the
insertion order written in each constructor). -/
def pair_mapping : Venue → List (List Char × List Char)
  | .binance =>
    [(lit "BTC/USDT", lit "btcusdt"), (lit "ETH/USDT", lit "ethusdt"),
     (lit "SOL/USDT", lit "solusdt"), (lit "XRP/USDT", lit "xrpusdt")]
  | .kraken =>
    [(lit "BTC/USDT", lit "XBT/USDT"), (lit "ETH/USDT", lit "ETH/USDT"),
     (lit "SOL/USDT", lit "SOL/USDT"), (lit "XRP/USDT", lit "XRP/USDT")]
  | .coinbase =>
    [(lit "BTC/USDT", lit "BTC-USDT"), (lit "ETH/USDT", lit "ETH-USDT"),
     (lit "SOL/USDT", lit "SOL-USDT"), (lit "XRP/USDT", lit "XRP-USDT")]
  | .bybit =>
    [(lit "BTC/USDT", lit "BTCUSDT"), (lit "ETH/USDT", lit "ETHUSDT"),
     (lit "SOL/USDT", lit "SOLUSDT"), (lit "XRP/USDT", lit "XRPUSDT")]
  | .okx =>
    [(lit "BTC/USDT", lit "BTC-USDT"), (lit "ETH/USDT", lit "ETH-USDT"),
     (lit "SOL/USDT", lit "SOL-USDT"), (lit "XRP/USDT", lit "XRP-USDT")]

/-- reverse_mapping_: each constructor loops over pair_mapping_ inserting
the swapped entry; since the native symbols are pairwise distinct per venue
this yields exactly the swapped association (std::map re-sorts the keys,
which does not affect lookups). -/
def reverse_mapping (v : Venue) : List (List Char × List Char) :=
  (pair_mapping v).map (fun p => (p.2, p.1))

/-! ### Exchange parsers

Each parse_message body is translated statement by statement; the value is
an Except whose .error case is the body throwing (only std::stod throws
here), and the outer function is the catch-all collapsing that to "no
record".  The local-receipt timestamp assigned from system_clock::now() is
passed in as the parameter t. -/

/-- ::tolower on the ASCII range, as applied by std::transform in
BinanceClient::parse_message. -/
def toLowerC (c : Char) : Char :=
  if 'A' ≤ c && c ≤ 'Z' then Char.ofNat (c.toNat + 32) else c

/-- BinanceClient::parse_message body (binance_client.cpp lines 51-79). -/
def binance_parse_body (t : Int) (m : List Char) : Except Unit (Option PriceUpdate) :=
  if !(has_key m (lit "s")) || !(has_key m (lit "b")) || !(has_key m (lit "a")) then
    Except.ok none
  else
    let symbol := (get_json_string m (lit "s")).map toLowerC
    match assocFind (reverse_mapping .binance) symbol with
    | none => Except.ok none
    | some pair =>
      match stodQ (get_json_string m (lit "b")) with
      | Except.error e => Except.error e
      | Except.ok bid =>
        match stodQ (get_json_string m (lit "a")) with
        | Except.error e => Except.error e
        | Except.ok ask =>
          Except.ok (some ⟨lit "Binance", pair, bid, ask, t⟩)

/-- KrakenClient::parse_message body (kraken_client.cpp lines 63-103).
last_quote cannot be 0 past the ticker guard (the guard needs two quotes),
so the size_t wrap of last_quote - 1 to npos is mirrored by searching from
the end in that unreachable case. -/
def kraken_parse_body (t : Int) (m : List Char) : Except Unit (Option PriceUpdate) :=
  if !(is_array m) then Except.ok none
  else if (strFind m (lit "\"ticker\"") 0).isNone then Except.ok none
  else
    match strRfind m ['"'] m.length with
    | none => Except.ok none
    | some lq =>
      match strRfind m ['"'] (if lq = 0 then m.length else lq - 1) with
      | none => Except.ok none
      | some sl =>
        let kraken_pair := substrCpp m (sl + 1) (lq - sl - 1)
        match assocFind (reverse_mapping .kraken) kraken_pair with
        | none => Except.ok none
        | some pair =>
          match stodQ (get_nested_value m (lit "b") 0) with
          | Except.error e => Except.error e
          | Except.ok bid =>
            match stodQ (get_nested_value m (lit "a") 0) with
            | Except.error e => Except.error e
            | Except.ok ask =>
              Except.ok (some ⟨lit "Kraken", pair, bid, ask, t⟩)

/-- CoinbaseClient::parse_message body (coinbase_client.cpp lines 54-86). -/
def coinbase_parse_body (t : Int) (m : List Char) : Except Unit (Option PriceUpdate) :=
  if get_json_string m (lit "type") ≠ lit "ticker" then Except.ok none
  else if !(has_key m (lit "product_id")) || !(has_key m (lit "best_bid"))
      || !(has_key m (lit "best_ask")) then Except.ok none
  else
    let product_id := get_json_string m (lit "product_id")
    match assocFind (reverse_mapping .coinbase) product_id with
    | none => Except.ok none
    | some pair =>
      match stodQ (get_json_string m (lit "best_bid")) with
      | Except.error e => Except.error e
      | Except.ok bid =>
        match stodQ (get_json_string m (lit "best_ask")) with
        | Except.error e => Except.error e
        | Except.ok ask =>
          Except.ok (some ⟨lit "Coinbase", pair, bid, ask, t⟩)

/-- BybitClient::parse_message body (bybit_client.cpp lines 60-104). -/
def bybit_parse_body (t : Int) (m : List Char) : Except Unit (Option PriceUpdate) :=
  if !(has_key m (lit "topic")) || !(has_key m (lit "data")) then Except.ok none
  else if strFind (get_json_string m (lit "topic")) (lit "tickers.") 0 ≠ some 0 then
    Except.ok none
  else
    let symbol := get_json_string m (lit "symbol")
    if symbol.isEmpty then Except.ok none
    else
      match assocFind (reverse_mapping .bybit) symbol with
      | none => Except.ok none
      | some pair =>
        let bid_str := get_json_string m (lit "bid1Price")
        let ask_str := get_json_string m (lit "ask1Price")
        if bid_str.isEmpty || ask_str.isEmpty then Except.ok none
        else
          match stodQ bid_str with
          | Except.error e => Except.error e
          | Except.ok bid =>
            match stodQ ask_str with
            | Except.error e => Except.error e
            | Except.ok ask =>
              Except.ok (some ⟨lit "Bybit", pair, bid, ask, t⟩)

/-- OKXClient::parse_message body (okx_client.cpp lines 60-99). -/
def okx_parse_body (t : Int) (m : List Char) : Except Unit (Option PriceUpdate) :=
  if !(has_key m (lit "data")) then Except.ok none
  else
    let inst_id := get_json_string m (lit "instId")
    if inst_id.isEmpty then Except.ok none
    else
      match assocFind (reverse_mapping .okx) inst_id with
      | none => Except.ok none
      | some pair =>
        let bid_str := get_json_string m (lit "bidPx")
        let ask_str := get_json_string m (lit "askPx")
        if bid_str.isEmpty || ask_str.isEmpty then Except.ok none
        else
          match stodQ bid_str with
          | Except.error e => Except.error e
          | Except.ok bid =>
            match stodQ ask_str with
            | Except.error e => Except.error e
            | Except.ok ask =>
              Except.ok (some ⟨lit "OKX", pair, bid, ask, t⟩)

/-- Dispatch of the virtual parse_message body over the venues. -/
def parse_body (v : Venue) (t : Int) (m : List Char) : Except Unit (Option PriceUpdate) :=
  match v with
  | .binance => binance_parse_body t m
  | .kraken => kraken_parse_body t m
  | .coinbase => coinbase_parse_body t m
  | .bybit => bybit_parse_body t m
  | .okx => okx_parse_body t m

/-- parse_message as seen by the caller: the catch-all in every
parse_message turns a thrown exception into a silent drop, so the caller
observes at most one record and never an exception. -/
def parse_message (v : Venue) (t : Int) (m : List Char) : Option PriceUpdate :=
  match parse_body v t m with
  | Except.error _ => none
  | Except.ok r => r

/-! ### The WebSocket session state machine (websocket_client.cpp)

Between suspension points a session runs one completion handler at a time,
so its state is the pair of members the handlers read and write:
running_ and reconnect_attempts_ (an int in the C++).  Each completion
handler is one transition. -/

/-- The session state touched by the completion handlers. -/
structure SessState where
  running : Bool
  attempts : Int
deriving DecidableEq

/-- WebSocketClient::reconnect (lines 180-209): bail out when stopped or at
the cap (no timer is started), otherwise increment the counter and start
the RECONNECT_DELAY_SECONDS timer whose handler re-resolves.  The result is
the new state together with the scheduled delay, none when no timer was
scheduled. -/
def reconnect (s : SessState) : SessState × Option Int :=
  if !s.running || s.attempts ≥ 10 then (s, none)
  else (⟨s.running, s.attempts + 1⟩, some 5)

/-- The state established by start() (lines 28-33): running_ = true,
reconnect_attempts_ = 0. -/
def startedSession : SessState := ⟨true, 0⟩

/-- The member-initializer state of the constructor (lines 23-24). -/
def initSession : SessState := ⟨false, 0⟩

/-- One completion event per asynchronous handler of the session.  The err
events are the handlers that run their error branch and call reconnect();
the ok events are the success branches; timerFire is the backoff timer
completing. -/
inductive SessEv where
  | startEv
  | stopEv
  | resolveErr
  | connectErr
  | sslErr
  | wsErr
  | subscribeErr
  | readErr
  | wsOk
  | resolveOk
  | connectOk
  | sslOk
  | subscribeOk
  | readOk
  | timerFire
deriving DecidableEq

/-- Whether the event is an error completion routed to reconnect(). -/
def isFailEv : SessEv → Bool
  | .resolveErr | .connectErr | .sslErr | .wsErr | .subscribeErr | .readErr => true
  | _ => false

/-- Effect of one completion event on the session state, read off the
corresponding handler: start() resets both members, stop() clears
running_, the WebSocket-handshake success handler (line 117) zeroes the
counter, every error handler calls reconnect(), and no other handler
touches either member. -/
def applyEv (s : SessState) (e : SessEv) : SessState :=
  match e with
  | .startEv => ⟨true, 0⟩
  | .stopEv => ⟨false, s.attempts⟩
  | .wsOk => ⟨s.running, 0⟩
  | .resolveErr | .connectErr | .sslErr | .wsErr | .subscribeErr | .readErr =>
    (reconnect s).1
  | _ => s

/-- State after a sequence of completion events from the constructed
session. -/
def runEvents (es : List SessEv) : SessState := es.foldl applyEv initSession

/-- Network operations issued by a session, as observable by the I/O
runtime. -/
inductive NetOp where
  | resolveOp
  | timerOp (delaySeconds : Int)
deriving DecidableEq

/-- Operation trace of a session every one of whose resolves fails, starting
from state s: each cycle issues the resolve, whose failure handler calls
reconnect(); if reconnect schedules the timer, the timer fires and its
handler re-resolves when running_ still holds.  The fuel only bounds the
number of cycles unfolded; the trace is finite on its own because the
attempt cap stops scheduling. -/
def failTrace : Nat → SessState → List NetOp
  | 0, _ => []
  | f + 1, s =>
    NetOp.resolveOp ::
      match reconnect s with
      | (_, none) => []
      | (s', some d) =>
        NetOp.timerOp d :: (if s'.running then failTrace f s' else [])

/-- The expected all-resolves-fail trace: the initial resolve from start(),
then ten cycles of a 5 s backoff timer followed by the re-resolve, and
nothing after the eleventh resolve fails. -/
def cappedTrace : List NetOp :=
  NetOp.resolveOp :: (List.replicate 10 [NetOp.timerOp 5, NetOp.resolveOp]).flatten

/-! ### The fan-out consumer set (price_feed_server.cpp)

broadcast_price serialises the record once, takes the mutex and runs
erase(remove_if(...)) over clients_, where the predicate performs the
blocking asio::write of the whole line and reports whether it returned an
error.  remove_if applies the predicate exactly once to every element, in
order, so on each broadcast every registered consumer gets exactly one
write of the full line; asio::write succeeds only when the complete buffer
was transferred.  A consumer is modelled by an identity and the
per-broadcast outcome of that write. -/

/-- A connected consumer socket: id distinguishes sockets, writeOk n tells
whether the blocking asio::write of broadcast n's line returns success. -/
structure Consumer where
  id : Nat
  writeOk : Nat → Bool

/-- The consumers whose asio::write of broadcast n's line returned success;
by the complete-write semantics of asio::write these are exactly the
consumers that received the full line. -/
def receiversOf (n : Nat) (cs : List Consumer) : List Consumer :=
  cs.filter (fun c => c.writeOk n)

/-- The consumer set after broadcast_price for broadcast n:
erase(remove_if) keeps exactly the consumers whose write succeeded.  With
no intervening accept, this is the set broadcast n+1 begins with. -/
def broadcast_price (n : Nat) (cs : List Consumer) : List Consumer :=
  cs.filter (fun c => c.writeOk n)

/-! ### A JSON grammar acceptor

Used to state what "parses as a JSON document" means for claims C4 and
C10.  It follows the RFC 8259 grammar restricted to what the statements
here need: strings reject unescaped control characters and end at the
first unescaped quote (any two-character escape is accepted and the
four-hex-digit check of the u escape is not enforced), and number tokens
are checked leniently (leading zeros are accepted).  The relaxations only
widen the accepted language; every rejection used below is forced by the
grammar itself. -/

/-- JSON insignificant whitespace. -/
def isJsonWs (c : Char) : Bool :=
  c = ' ' || c = '\t' || c = '\n' || c = '\r'

/-- Scanner for the body of a string literal; the flag records that the
previous character was an unconsumed backslash, whose follower is taken
blindly (the escape alphabet and the four-hex-digit u form are not
checked). -/
def stringBodyAux : Bool → List Char → Option (List Char)
  | _, [] => none
  | true, _ :: r => stringBodyAux false r
  | false, c :: r =>
    if c = '"' then some r
    else if c = '\\' then stringBodyAux true r
    else if c.toNat < 32 then none
    else stringBodyAux false r

/-- Remainder after the body of a string literal (the opening quote already
consumed): stop at an unescaped quote, skip escaped pairs, reject control
characters and an unterminated string. -/
def stringBody (s : List Char) : Option (List Char) := stringBodyAux false s

/-- Remainder after an exponent part, which is consumed only when at least
one digit follows the marker (and optional sign). -/
def expTail (s : List Char) : List Char :=
  match s with
  | c :: r =>
    if c = 'e' || c = 'E' then
      match r with
      | c2 :: r2 =>
        if c2 = '+' || c2 = '-' then
          if (r2.takeWhile Char.isDigit).isEmpty then s
          else r2.dropWhile Char.isDigit
        else if (r.takeWhile Char.isDigit).isEmpty then s
        else r.dropWhile Char.isDigit
      | [] => s
    else s
  | [] => s

/-- Remainder after a maximal run of decimal digits. -/
def digitsRun : List Char → List Char
  | [] => []
  | c :: r => if c.isDigit then digitsRun r else c :: r

/-- Remainder after a run of at least one decimal digit, none when the
input does not start with a digit. -/
def digitsTail (s : List Char) : Option (List Char) :=
  match s with
  | [] => none
  | c :: r => if c.isDigit then some (digitsRun r) else none

/-- Remainder after the optional fraction and exponent of a number token,
entered right after the integer digits. -/
def fracTail (s : List Char) : Option (List Char) :=
  match s with
  | [] => some (expTail s)
  | c2 :: r2 =>
    if c2 = '.' then
      match digitsTail r2 with
      | none => none
      | some s3 => some (expTail s3)
    else some (expTail s)

/-- Remainder after a number token: optional minus, at least one integer
digit, optional fraction with at least one digit, optional exponent. -/
def numberTail (s : List Char) : Option (List Char) :=
  match digitsTail (if s.head? = some '-' then s.tail else s) with
  | none => none
  | some s2 => fracTail s2

/-- Remainder after a literal keyword tail (rue, alse, ull). -/
def keywordTail (kw s : List Char) : Option (List Char) :=
  if kw.isPrefixOf s then some (s.drop kw.length) else none

/-- Parsing positions: a value, the members of an object after its opening
brace (first key expected), or the elements of an array after its opening
bracket (first element expected). -/
inductive PMode where
  | val
  | objMember
  | arrElem
deriving DecidableEq

/-- Recursive-descent acceptance: given fuel, a mode and the input, return
the remainder after one value / the member list and closing brace / the
element list and closing bracket.  Fuel is spent once per member, element
and nesting level. -/
def parseRun : Nat → PMode → List Char → Option (List Char)
  | 0, _, _ => none
  | f + 1, PMode.val, s =>
    match s.dropWhile isJsonWs with
    | [] => none
    | c :: r =>
      if c = lbrace then
        match r.dropWhile isJsonWs with
        | c2 :: r2 => if c2 = rbrace then some r2
                      else parseRun f PMode.objMember ((c2 :: r2))
        | [] => none
      else if c = '[' then
        match r.dropWhile isJsonWs with
        | c2 :: r2 => if c2 = ']' then some r2
                      else parseRun f PMode.arrElem ((c2 :: r2))
        | [] => none
      else if c = '"' then stringBody r
      else if c = 't' then keywordTail (lit "rue") r
      else if c = 'f' then keywordTail (lit "alse") r
      else if c = 'n' then keywordTail (lit "ull") r
      else numberTail (c :: r)
  | f + 1, PMode.objMember, s =>
    match s.dropWhile isJsonWs with
    | [] => none
    | c :: r =>
      if c = '"' then
        match stringBody r with
        | none => none
        | some r2 =>
          match r2.dropWhile isJsonWs with
          | [] => none
          | c3 :: r3 =>
            if c3 = ':' then
              match parseRun f PMode.val r3 with
              | none => none
              | some r4 =>
                match r4.dropWhile isJsonWs with
                | [] => none
                | c5 :: r5 =>
                  if c5 = ',' then parseRun f PMode.objMember r5
                  else if c5 = rbrace then some r5
                  else none
            else none
      else none
  | f + 1, PMode.arrElem, s =>
    match parseRun f PMode.val s with
    | none => none
    | some r =>
      match r.dropWhile isJsonWs with
      | [] => none
      | c2 :: r2 =>
        if c2 = ',' then parseRun f PMode.arrElem r2
        else if c2 = ']' then some r2
        else none

/-- A string is a JSON document when some fuel suffices to accept exactly
one value followed by nothing but whitespace. -/
def JsonDoc (s : List Char) : Prop :=
  ∃ f r, parseRun f PMode.val s = some r ∧ r.dropWhile isJsonWs = []

/-! ### Concrete frames and auxiliary predicates used in the statements -/

/-- Whether a network operation is a timer wait. -/
def isTimerOp : NetOp → Bool
  | .timerOp _ => true
  | .resolveOp => false

/-- A string whose characters may sit unescaped inside a JSON string
literal: no quote, no backslash, no control character. -/
def cleanJsonStr (s : List Char) : Prop :=
  ∀ c ∈ s, c ≠ '"' ∧ c ≠ '\\' ∧ 32 ≤ c.toNat

/-- The Kraken ticker frame of the spec's concrete scenario 2. -/
def krakenTickFrame : List Char :=
  lit "[340,\x7b\"a\":[\"1902.12\",1,\"1.234\"],\"b\":[\"1901.87\",2,\"2.345\"],\"c\":[\"1902.00\",\"0.01\"]\x7d,\"ticker\",\"ETH/USDT\"]"

/-- A frame that is not a JSON document at all (no top-level object) yet
contains the quoted keys and price fields the Binance parser scans for. -/
def malformedBinanceFrame : List Char :=
  lit "\"s\":\"BTCUSDT\",\"b\":\"1.5\",\"a\":\"2.5\""

/-- The remainder of malformedBinanceFrame after its leading string
literal, as consumed by the JSON acceptor. -/
def malformedBinanceRest : List Char :=
  lit ":\"BTCUSDT\",\"b\":\"1.5\",\"a\":\"2.5\""

/-- Kraken's documented heartbeat frame (spec scenario 3). -/
def krakenHeartbeatFrame : List Char := lit "\x7b\"event\":\"heartbeat\"\x7d"

/-- A Kraken array frame carrying the ticker marker and a known pair but no
b or a field, so std::stod throws inside the try block. -/
def krakenNoBidFrame : List Char := lit "[\"ticker\",\"XBT/USDT\"]"

/-- A Binance event acknowledgment without the s/b/a tick keys. -/
def binanceAckFrame : List Char := lit "\x7b\"result\":null,\"id\":1\x7d"

/-- A Coinbase subscriptions acknowledgment (type is not ticker). -/
def coinbaseAckFrame : List Char :=
  lit "\x7b\"type\":\"subscriptions\",\"channels\":[\"ticker\"]\x7d"

/-- A Bybit subscription acknowledgment without topic/data keys. -/
def bybitAckFrame : List Char :=
  lit "\x7b\"success\":true,\"op\":\"subscribe\",\"conn_id\":\"abc\"\x7d"

/-- An OKX subscription acknowledgment without a data key. -/
def okxAckFrame : List Char :=
  lit "\x7b\"event\":\"subscribe\",\"arg\":\x7b\"channel\":\"tickers\",\"instId\":\"BTC-USDT\"\x7d\x7d"

/-- A JSON array frame without the ticker channel marker. -/
def krakenArrayNoTickerFrame : List Char := lit "[1,2,3]"

/-! ## Helper lemmas -/

/-- A successful association-list lookup returns one of the stored values. -/
theorem assocFind_snd {l : List (List Char × List Char)} {k v : List Char}
    (h : assocFind l k = some v) : v ∈ l.map Prod.snd := by
  induction l with
  | nil => simp [assocFind] at h
  | cons p r ih =>
    obtain ⟨a, b⟩ := p
    rw [assocFind] at h
    by_cases hk : k = a
    · simp [hk] at h
      simp [h]
    · simp [hk] at h
      exact List.mem_cons_of_mem _ (ih h)

/-! ## C5 : the per-venue symbol mapping round-trips on the canonical pairs -/

/-- C5: for every venue and every canonical pair C among BTC/USDT, ETH/USDT,
SOL/USDT, XRP/USDT, looking C up in the venue's pair_mapping_ and looking
the resulting native symbol up in the venue's reverse_mapping_ yields C
again — the per-venue symbol mapping is a bijection over the four pairs. -/
theorem symbol_round_trip (v : Venue) (c : List Char) (hc : c ∈ canonicalPairs) :
    (assocFind (pair_mapping v) c).bind (assocFind (reverse_mapping v)) = some c := by
  simp only [canonicalPairs, lit, List.mem_cons, List.not_mem_nil, or_false] at hc
  cases v <;> rcases hc with rfl | rfl | rfl | rfl <;> decide

/-- Witness: the round trip at Kraken and BTC/USDT (whose native spelling
XBT/USDT differs from the canonical one). -/
theorem symbol_round_trip_w :
    (assocFind (pair_mapping Venue.kraken) (lit "BTC/USDT")).bind
      (assocFind (reverse_mapping Venue.kraken)) = some (lit "BTC/USDT") :=
  symbol_round_trip Venue.kraken (lit "BTC/USDT") (by decide)

/-! ## C2 : the attempt counter resets on a successful WebSocket handshake -/

/-- C2: right after the WebSocket-handshake success handler runs,
reconnect_attempts_ is 0, and the first transient failure after that point
runs reconnect() with the counter at 0, entering backoff with the counter
at 1 and the 5 s timer scheduled — the count restarts at the last
successful WsHandshake-to-Subscribing transition rather than at process
start. -/
theorem counter_reset (s : SessState) (h : s.running = true) :
    (applyEv s SessEv.wsOk).attempts = 0 ∧
    reconnect (applyEv s SessEv.wsOk) = (⟨true, 1⟩, some 5) := by
  refine ⟨rfl, ?_⟩
  simp [applyEv, reconnect, h]

/-- Witness: the reset and first-failure step from a running session that
had already burnt seven attempts. -/
theorem counter_reset_w :
    (applyEv ⟨true, 7⟩ SessEv.wsOk).attempts = 0 ∧
    reconnect (applyEv ⟨true, 7⟩ SessEv.wsOk) = (⟨true, 1⟩, some 5) :=
  counter_reset ⟨true, 7⟩ rfl

/-! ## C9 : the attempt counter stays within 0..10 -/

/-- reconnect either leaves the counter alone or, below the cap, increments
it by one. -/
theorem reconnect_attempts_cases (s : SessState) :
    (reconnect s).1.attempts = s.attempts ∨
      ((reconnect s).1.attempts = s.attempts + 1 ∧ s.attempts < 10) := by
  rw [reconnect]
  split
  · exact Or.inl rfl
  · next hcond =>
    have h2 : ¬ (10 ≤ s.attempts) := fun hx => hcond (by simp [hx])
    exact Or.inr ⟨rfl, by omega⟩

/-- One completion event keeps the counter inside the 0..10 window. -/
theorem applyEv_bounds (s : SessState) (e : SessEv)
    (h : 0 ≤ s.attempts ∧ s.attempts ≤ 10) :
    0 ≤ (applyEv s e).attempts ∧ (applyEv s e).attempts ≤ 10 := by
  obtain ⟨h0, h10⟩ := h
  have hrec : 0 ≤ (reconnect s).1.attempts ∧ (reconnect s).1.attempts ≤ 10 := by
    rcases reconnect_attempts_cases s with h1 | ⟨h1, h2⟩ <;> rw [h1] <;>
      exact ⟨by omega, by omega⟩
  cases e <;> simp only [applyEv] <;>
    first
      | exact hrec
      | exact ⟨h0, h10⟩
      | exact ⟨by norm_num, by norm_num⟩

/-- C9: the reconnect-attempt counter is between 0 and 10 in every state
reachable by completion events from the constructed session; start() and
the WebSocket-handshake success handler set it to 0; an error completion
increments it by exactly 1 when the session is running and the counter is
strictly below 10 and leaves it unchanged otherwise; and no other
completion event modifies it. -/
theorem attempt_counter_bounds :
    (∀ es, 0 ≤ (runEvents es).attempts ∧ (runEvents es).attempts ≤ 10) ∧
    (∀ s, (applyEv s SessEv.startEv).attempts = 0 ∧ (applyEv s SessEv.wsOk).attempts = 0) ∧
    (∀ s e, isFailEv e = true → s.running = true → s.attempts < 10 →
      (applyEv s e).attempts = s.attempts + 1) ∧
    (∀ s e, isFailEv e = true → (s.running = false ∨ 10 ≤ s.attempts) →
      (applyEv s e).attempts = s.attempts) ∧
    (∀ s e, isFailEv e = false → e ≠ SessEv.startEv → e ≠ SessEv.wsOk →
      (applyEv s e).attempts = s.attempts) := by
  refine ⟨?_, fun s => ⟨rfl, rfl⟩, ?_, ?_, ?_⟩
  · intro es
    suffices h : ∀ s, 0 ≤ s.attempts ∧ s.attempts ≤ 10 →
        0 ≤ (es.foldl applyEv s).attempts ∧ (es.foldl applyEv s).attempts ≤ 10 by
      exact h initSession (by simp [initSession])
    induction es with
    | nil => exact fun s hs => hs
    | cons e es ih => exact fun s hs => ih _ (applyEv_bounds s e hs)
  · intro s e he hr ha
    have hneg : ¬ ((!s.running || decide (s.attempts ≥ 10)) = true) := by
      rw [hr]
      simp only [Bool.not_true, Bool.false_or, decide_eq_true_eq]
      omega
    cases e <;> first
      | (simp only [applyEv]
         rw [reconnect, if_neg hneg])
      | simp [isFailEv] at he
  · intro s e he hd
    have hpos : (!s.running || decide (s.attempts ≥ 10)) = true := by
      rcases hd with hd | hd <;> simp [hd]
    cases e <;> first
      | (simp only [applyEv]
         rw [reconnect, if_pos hpos])
      | simp [isFailEv] at he
  · intro s e he h1 h2
    cases e <;> first
      | exact absurd rfl h1
      | exact absurd rfl h2
      | rfl
      | simp [isFailEv] at he

/-- Witness: bounds after a start and one failure, the increment at a
running state below the cap, the freeze at the cap, and the inertness of
stop(), all at concrete states. -/
theorem attempt_counter_bounds_w :
    (0 ≤ (runEvents [SessEv.startEv, SessEv.resolveErr]).attempts ∧
      (runEvents [SessEv.startEv, SessEv.resolveErr]).attempts ≤ 10) ∧
    (applyEv ⟨true, 3⟩ SessEv.readErr).attempts = (3 : Int) + 1 ∧
    (applyEv ⟨true, 10⟩ SessEv.readErr).attempts = 10 ∧
    (applyEv ⟨true, 4⟩ SessEv.stopEv).attempts = 4 :=
  ⟨attempt_counter_bounds.1 _,
   attempt_counter_bounds.2.2.1 ⟨true, 3⟩ SessEv.readErr rfl rfl (by norm_num),
   attempt_counter_bounds.2.2.2.1 ⟨true, 10⟩ SessEv.readErr rfl (Or.inr (by norm_num)),
   attempt_counter_bounds.2.2.2.2 ⟨true, 4⟩ SessEv.stopEv rfl (by simp) (by simp)⟩

/-! ## C3 : broadcast either delivers the full line or removes the consumer -/

/-- C3: on any broadcast, every consumer registered when the call begins
either has its blocking write of the complete line succeed (and is kept),
or its write errors and it is erased from the set within the same call;
hence a consumer whose write errors on broadcast n is absent from the set
broadcast n+1 starts from, while every other registered consumer still
receives broadcast n. -/
theorem broadcast_dichotomy :
    (∀ (n : Nat) (cs : List Consumer) (c : Consumer), c ∈ cs →
      (c.writeOk n = true ∧ c ∈ receiversOf n cs ∧ c ∈ broadcast_price n cs) ∨
      (c.writeOk n = false ∧ c ∉ broadcast_price n cs)) ∧
    (∀ (n : Nat) (cs : List Consumer) (c : Consumer), c ∈ cs →
      c.writeOk n = false → c ∉ broadcast_price n cs) ∧
    (∀ (n : Nat) (cs : List Consumer) (c : Consumer), c ∈ cs →
      c.writeOk n = true → c ∈ receiversOf n cs) := by
  refine ⟨?_, ?_, ?_⟩
  · intro n cs c hc
    cases hw : c.writeOk n with
    | true =>
      exact Or.inl ⟨rfl, List.mem_filter.mpr ⟨hc, hw⟩, List.mem_filter.mpr ⟨hc, hw⟩⟩
    | false =>
      refine Or.inr ⟨rfl, fun hmem => ?_⟩
      have := (List.mem_filter.mp hmem).2
      rw [hw] at this
      exact Bool.false_ne_true this
  · intro n cs c _ hw hmem
    have := (List.mem_filter.mp hmem).2
    rw [hw] at this
    exact Bool.false_ne_true this
  · intro n cs c hc hw
    exact List.mem_filter.mpr ⟨hc, hw⟩

/-- Witness: a two-consumer set where consumer 1's write errors on
broadcast 0: consumer 0 receives the line and survives, consumer 1 is
removed. -/
theorem broadcast_dichotomy_w :
    ((⟨0, fun _ => true⟩ : Consumer) ∈
        receiversOf 0 [⟨0, fun _ => true⟩, ⟨1, fun _ => false⟩]) ∧
    ((⟨1, fun _ => false⟩ : Consumer) ∉
        broadcast_price 0 [⟨0, fun _ => true⟩, ⟨1, fun _ => false⟩]) :=
  ⟨broadcast_dichotomy.2.2 0 _ _ (List.mem_cons_self _ _) rfl,
   broadcast_dichotomy.2.1 0 _ _ (List.mem_cons_of_mem _ (List.mem_cons_self _ _)) rfl⟩

/-! ## C1 : at most ten reconnection attempts, then silence -/

/-- A failing resolve below the cap burns one attempt: the trace shows the
resolve, the 5 s backoff timer, and continues from the incremented state. -/
theorem failTrace_cycle (f : Nat) (a : Int) (ha : a < 10) :
    failTrace (f + 1) ⟨true, a⟩ =
      NetOp.resolveOp :: NetOp.timerOp 5 :: failTrace f ⟨true, a + 1⟩ := by
  rw [failTrace, reconnect, if_neg (by simp; omega)]
  rfl

/-- A failing resolve at the cap produces the resolve and nothing more:
reconnect() returns without scheduling a timer. -/
theorem failTrace_capped (f : Nat) (a : Int) (ha : 10 ≤ a) :
    failTrace (f + 1) ⟨true, a⟩ = [NetOp.resolveOp] := by
  rw [failTrace, reconnect, if_pos (by simp [ha])]

/-- C1: a session started with start() whose every resolve fails performs
exactly ten reconnection attempts — the trace past any sufficient unfolding
bound is the initial resolve followed by ten timer-then-resolve cycles and
nothing else — with every backoff timer set to the fixed 5 seconds, and
after the tenth re-resolve fails no further resolve or timer operation is
issued. -/
theorem reconnect_cap :
    (∀ f, 11 ≤ f → failTrace f startedSession = cappedTrace) ∧
    cappedTrace.count NetOp.resolveOp = 11 ∧
    cappedTrace.filter isTimerOp = List.replicate 10 (NetOp.timerOp 5) ∧
    cappedTrace.getLast? = some NetOp.resolveOp := by
  refine ⟨?_, by decide, by decide, by decide⟩
  intro f hf
  obtain ⟨k, rfl⟩ := Nat.exists_eq_add_of_le hf
  show failTrace (11 + k) ⟨true, 0⟩ = cappedTrace
  rw [show 11 + k = (10 + k) + 1 from by omega, failTrace_cycle _ 0 (by norm_num)]
  rw [show 10 + k = (9 + k) + 1 from by omega, failTrace_cycle _ _ (by norm_num)]
  rw [show 9 + k = (8 + k) + 1 from by omega, failTrace_cycle _ _ (by norm_num)]
  rw [show 8 + k = (7 + k) + 1 from by omega, failTrace_cycle _ _ (by norm_num)]
  rw [show 7 + k = (6 + k) + 1 from by omega, failTrace_cycle _ _ (by norm_num)]
  rw [show 6 + k = (5 + k) + 1 from by omega, failTrace_cycle _ _ (by norm_num)]
  rw [show 5 + k = (4 + k) + 1 from by omega, failTrace_cycle _ _ (by norm_num)]
  rw [show 4 + k = (3 + k) + 1 from by omega, failTrace_cycle _ _ (by norm_num)]
  rw [show 3 + k = (2 + k) + 1 from by omega, failTrace_cycle _ _ (by norm_num)]
  rw [show 2 + k = (1 + k) + 1 from by omega, failTrace_cycle _ _ (by norm_num)]
  rw [show 1 + k = k + 1 from by omega, failTrace_capped _ _ (by norm_num)]
  decide

/-- Witness: the capped trace is reached at the smallest sufficient
unfolding bound. -/
theorem reconnect_cap_w : failTrace 11 startedSession = cappedTrace :=
  reconnect_cap.1 11 (by norm_num)

/-! ## C7 : the concrete Kraken ticker frame -/

/-- C7: on the spec's concrete Kraken frame the parser emits exactly one
record (the Option result is some, and one frame yields at most one
record): pair ETH/USDT taken from the last quoted token of the array,
bid 1901.87 from the first element of the b array and ask 1902.12 from the
first element of the a array, at whatever receipt time t the session
observed. -/
theorem kraken_tick_scenario (t : Int) :
    parse_message Venue.kraken t krakenTickFrame =
      some ⟨lit "Kraken", lit "ETH/USDT", mkRat 190187 100, mkRat 190212 100, t⟩ := by
  rfl

/-! ## C8 : every emitted record is venue-labelled and canonically paired -/

/-- A successful lookup in any venue's reverse map yields one of the four
canonical pairs. -/
theorem assocFind_canonical (v : Venue) (k p : List Char)
    (h : assocFind (reverse_mapping v) k = some p) : p ∈ canonicalPairs := by
  have hm := assocFind_snd h
  cases v <;> simpa [reverse_mapping, pair_mapping, canonicalPairs] using hm

/-- C8: whatever frame any venue's parser is fed, an emitted record carries
that venue's fixed exchange label and a pair that is one of the four
canonical pairs — emission always flows through a successful reverse-map
lookup, so no other pair string reaches the fan-out. -/
theorem emitted_record_wellformed (v : Venue) (t : Int) (m : List Char)
    (u : PriceUpdate) (h : parse_message v t m = some u) :
    u.exchange = venueName v ∧ u.pair ∈ canonicalPairs := by
  rw [parse_message] at h
  rcases hb : parse_body v t m with e | r
  · rw [hb] at h
    exact Option.noConfusion h
  · rw [hb] at h
    replace h : r = some u := h
    subst h
    cases v <;>
      simp only [parse_body, binance_parse_body, kraken_parse_body,
        coinbase_parse_body, bybit_parse_body, okx_parse_body] at hb <;>
      repeat' split at hb
    all_goals
      first
        | (simp only [Except.ok.injEq, Option.some.injEq] at hb
           subst hb
           exact ⟨rfl, assocFind_canonical _ _ _ (by assumption)⟩)
        | (exfalso; simp at hb)

/-- Witness: the record emitted for the concrete Kraken ticker frame is
labelled Kraken and carries the canonical pair ETH/USDT. -/
theorem emitted_record_wellformed_w :
    (PriceUpdate.mk (lit "Kraken") (lit "ETH/USDT")
        (mkRat 190187 100) (mkRat 190212 100) 0).exchange = venueName Venue.kraken ∧
    (PriceUpdate.mk (lit "Kraken") (lit "ETH/USDT")
        (mkRat 190187 100) (mkRat 190212 100) 0).pair ∈ canonicalPairs :=
  emitted_record_wellformed Venue.kraken 0 krakenTickFrame _ (by rfl)

/-! ## C4 : parser tolerance of non-tick frames -/

/-- Counterexample to C4 as stated: malformedBinanceFrame is not a JSON
document at all (the acceptor rejects it at every fuel), so it falls under
the claim's "malformed JSON" category of frames that must yield nothing —
yet the Binance parser's substring scans find the quoted s/b/a keys in it
and emit a full PriceUpdate. -/
theorem parser_tolerance_cex :
    ¬ JsonDoc malformedBinanceFrame ∧
    parse_message Venue.binance 0 malformedBinanceFrame =
      some ⟨lit "Binance", lit "BTC/USDT", mkRat 3 2, mkRat 5 2, 0⟩ := by
  constructor
  · rintro ⟨f, r, h1, h2⟩
    cases f with
    | zero => exact Option.noConfusion h1
    | succ f =>
      have he : parseRun (f + 1) PMode.val malformedBinanceFrame =
          some malformedBinanceRest := rfl
      rw [he] at h1
      cases h1
      exact absurd h2 (by decide)
  · rfl

/-- C4 amended: every venue's parse_message is total towards its caller —
a throw inside the body (the .error outcome) is caught and yields no
record — and every frame rejected by a venue's own structural guards
yields no record: a non-array frame or an array frame without the quoted
ticker marker for Kraken, a frame missing the quoted s, b or a key for
Binance, a frame whose type field is not ticker for Coinbase, a frame
missing the quoted topic or data key for Bybit, and a frame missing the
quoted data key for OKX.  (Unlike the original claim, no guarantee is made
for arbitrary malformed-JSON frames: parser_tolerance_cex shows one that
emits.) -/
theorem parser_tolerance_amended :
    (∀ (v : Venue) (t : Int) (m : List Char) (e : Unit),
      parse_body v t m = Except.error e → parse_message v t m = none) ∧
    (∀ (t : Int) (m : List Char), is_array m = false →
      parse_message Venue.kraken t m = none) ∧
    (∀ (t : Int) (m : List Char), is_array m = true →
      (strFind m (lit "\"ticker\"") 0).isNone = true →
      parse_message Venue.kraken t m = none) ∧
    (∀ (t : Int) (m : List Char),
      has_key m (lit "s") = false ∨ has_key m (lit "b") = false ∨
        has_key m (lit "a") = false →
      parse_message Venue.binance t m = none) ∧
    (∀ (t : Int) (m : List Char), get_json_string m (lit "type") ≠ lit "ticker" →
      parse_message Venue.coinbase t m = none) ∧
    (∀ (t : Int) (m : List Char),
      has_key m (lit "topic") = false ∨ has_key m (lit "data") = false →
      parse_message Venue.bybit t m = none) ∧
    (∀ (t : Int) (m : List Char), has_key m (lit "data") = false →
      parse_message Venue.okx t m = none) := by
  refine ⟨?_, ?_, ?_, ?_, ?_, ?_, ?_⟩
  · intro v t m e h
    rw [parse_message, h]
  · intro t m h
    rw [parse_message, parse_body, kraken_parse_body, if_pos (by simp [h])]
  · intro t m h1 h2
    rw [parse_message, parse_body, kraken_parse_body,
      if_neg (by simp [h1]), if_pos h2]
  · intro t m h
    rw [parse_message, parse_body, binance_parse_body,
      if_pos (by rcases h with h | h | h <;> simp [h])]
  · intro t m h
    rw [parse_message, parse_body, coinbase_parse_body, if_pos h]
  · intro t m h
    rw [parse_message, parse_body, bybit_parse_body,
      if_pos (by rcases h with h | h <;> simp [h])]
  · intro t m h
    rw [parse_message, parse_body, okx_parse_body, if_pos (by simp [h])]

/-- Witness: the caught-throw clause on a Kraken array frame whose b field
is missing (std::stod throws on the empty extract), and every structural
guard clause on a documented heartbeat or acknowledgment frame. -/
theorem parser_tolerance_amended_w :
    parse_message Venue.kraken 0 krakenNoBidFrame = none ∧
    parse_message Venue.kraken 0 krakenHeartbeatFrame = none ∧
    parse_message Venue.kraken 0 krakenArrayNoTickerFrame = none ∧
    parse_message Venue.binance 0 binanceAckFrame = none ∧
    parse_message Venue.coinbase 0 coinbaseAckFrame = none ∧
    parse_message Venue.bybit 0 bybitAckFrame = none ∧
    parse_message Venue.okx 0 okxAckFrame = none :=
  ⟨parser_tolerance_amended.1 Venue.kraken 0 krakenNoBidFrame () (by rfl),
   parser_tolerance_amended.2.1 0 krakenHeartbeatFrame (by rfl),
   parser_tolerance_amended.2.2.1 0 krakenArrayNoTickerFrame (by rfl) (by rfl),
   parser_tolerance_amended.2.2.2.1 0 binanceAckFrame (Or.inl (by rfl)),
   parser_tolerance_amended.2.2.2.2.1 0 coinbaseAckFrame (by decide),
   parser_tolerance_amended.2.2.2.2.2.1 0 bybitAckFrame (Or.inl (by rfl)),
   parser_tolerance_amended.2.2.2.2.2.2 0 okxAckFrame (by rfl)⟩

/-! ## Digit-rendering lemmas -/

/-- The padded digit characters and plain digit characters all come from
the decimal digit alphabet. -/
theorem digitChar_mem (d : Nat) (h : d < 10) : digitChar d ∈ lit "0123456789" := by
  interval_cases d <;> decide

/-- Characters of the fuel-based natural rendering are decimal digits. -/
theorem mem_natReprAux {c : Char} :
    ∀ f n : Nat, c ∈ natReprAux f n → c ∈ lit "0123456789" := by
  intro f
  induction f with
  | zero => intro n h; simp [natReprAux] at h
  | succ f ih =>
    intro n h
    rw [natReprAux] at h
    split at h
    · next hn =>
      simp at h
      subst h
      exact digitChar_mem n hn
    · rcases List.mem_append.mp h with h | h
      · exact ih _ h
      · simp at h
        subst h
        exact digitChar_mem _ (Nat.mod_lt _ (by norm_num))

/-- Characters of natRepr are decimal digits. -/
theorem mem_natRepr {c : Char} {n : Nat} (h : c ∈ natRepr n) :
    c ∈ lit "0123456789" :=
  mem_natReprAux _ _ h

/-- The rendering of a natural number is never empty. -/
theorem natRepr_ne_nil (n : Nat) : natRepr n ≠ [] := by
  rw [natRepr, natReprAux]
  split
  · simp
  · simp

/-- natDigitsPadded produces exactly k characters. -/
theorem length_natDigitsPadded : ∀ k n : Nat, (natDigitsPadded k n).length = k := by
  intro k
  induction k with
  | zero => intro n; rfl
  | succ k ih => intro n; simp [natDigitsPadded, ih]

/-- Characters of natDigitsPadded are decimal digits. -/
theorem mem_natDigitsPadded {c : Char} :
    ∀ k n : Nat, c ∈ natDigitsPadded k n → c ∈ lit "0123456789" := by
  intro k
  induction k with
  | zero => intro n h; simp [natDigitsPadded] at h
  | succ k ih =>
    intro n h
    rw [natDigitsPadded] at h
    rcases List.mem_append.mp h with h | h
    · exact ih _ h
    · simp at h
      subst h
      exact digitChar_mem _ (Nat.mod_lt _ (by norm_num))

/-- The decimal digit characters are digits and none of the structural
characters of the JSON encoding. -/
theorem digit_char_props :
    ∀ c ∈ lit "0123456789", c.isDigit = true ∧ c ≠ '\n' ∧ c ≠ '.' ∧ c ≠ '"' ∧
      c ≠ '\\' ∧ c ≠ ',' ∧ c ≠ rbrace ∧ 32 ≤ c.toNat := by decide

/-- No newline occurs in a fixed-8 price rendering. -/
theorem fixed8_no_lf (q : ℚ) : '\n' ∉ fixed8 q := by
  intro h
  rw [fixed8] at h
  rcases List.mem_append.mp h with h | h
  · rcases List.mem_append.mp h with h | h
    · split at h <;> simp at h
    · exact absurd (digit_char_props _ (mem_natRepr h)).2.1 (by simp)
  · rcases List.mem_cons.mp h with h | h
    · exact absurd h (by decide)
    · exact absurd (digit_char_props _ (mem_natDigitsPadded _ _ h)).2.1 (by simp)

/-- No newline occurs in the integer timestamp rendering. -/
theorem intRepr_no_lf (z : Int) : '\n' ∉ intRepr z := by
  intro h
  rw [intRepr] at h
  have hd : '\n' ∈ natRepr z.natAbs → False := fun hx =>
    absurd (digit_char_props _ (mem_natRepr hx)).2.1 (by simp)
  split at h
  · rcases List.mem_cons.mp h with h | h
    · exact absurd h (by decide)
    · exact hd h
  · exact hd h

/-- The fixed-8 rendering splits at its unique dot into integer digits and
exactly eight fractional digits. -/
theorem fixed8_split (q : ℚ) :
    ∃ a b, fixed8 q = a ++ '.' :: b ∧ b.length = 8 ∧ '.' ∉ a ∧ '.' ∉ b := by
  refine ⟨(if q.num < 0 then ['-'] else []) ++
      natRepr ((2 * q.num.natAbs * 100000000 + q.den) / (2 * q.den) / 100000000),
    natDigitsPadded 8 ((2 * q.num.natAbs * 100000000 + q.den) / (2 * q.den) % 100000000),
    by rw [fixed8, List.append_assoc], length_natDigitsPadded _ _, ?_, ?_⟩
  · intro h
    rcases List.mem_append.mp h with h | h
    · split at h <;> simp at h
    · exact absurd (digit_char_props _ (mem_natRepr h)).2.2.1 (by simp)
  · intro h
    exact absurd (digit_char_props _ (mem_natDigitsPadded _ _ h)).2.2.1 (by simp)

/-! ## C6 : the wire encoding -/

/-- Counterexample to C6 as stated: to_json escapes nothing, so a
PriceUpdate whose exchange field contains a newline produces an output that
is not a single line. -/
theorem encoding_cex :
    '\n' ∈ to_json (PriceUpdate.mk (lit "A\nB") (lit "BTC/USDT")
      (mkRat 1 1) (mkRat 2 1) 0) := by decide

/-- C6 amended: for every PriceUpdate whose exchange and pair fields
contain no newline character, to_json yields a single newline-free line
that is exactly the brace-wrapped concatenation of the five key-value
segments in the order exchange, pair, bid, ask, timestamp with no
separators beyond the commas and colons written by the code; bid and ask
are rendered in fixed decimal notation with exactly eight fractional
digits after their unique dot; the timestamp field is the epoch
millisecond count; and the fan-out line appends exactly one LF after the
object. -/
theorem encoding_amended (u : PriceUpdate)
    (he : '\n' ∉ u.exchange) (hp : '\n' ∉ u.pair) :
    '\n' ∉ to_json u ∧
    to_json u = lit "\x7b\"exchange\":\"" ++ u.exchange ++ lit "\",\"pair\":\"" ++ u.pair
      ++ lit "\",\"bid\":" ++ fixed8 u.bid ++ lit ",\"ask\":" ++ fixed8 u.ask
      ++ lit ",\"timestamp\":" ++ intRepr u.timestamp ++ [rbrace] ∧
    (∃ a b, fixed8 u.bid = a ++ '.' :: b ∧ b.length = 8 ∧ '.' ∉ a ∧ '.' ∉ b) ∧
    (∃ a b, fixed8 u.ask = a ++ '.' :: b ∧ b.length = 8 ∧ '.' ∉ a ∧ '.' ∉ b) ∧
    broadcastLine u = to_json u ++ ['\n'] := by
  refine ⟨?_, rfl, fixed8_split u.bid, fixed8_split u.ask, rfl⟩
  intro h
  rw [to_json] at h
  rcases List.mem_append.mp h with h | h
  · rcases List.mem_append.mp h with h | h
    · rcases List.mem_append.mp h with h | h
      · rcases List.mem_append.mp h with h | h
        · rcases List.mem_append.mp h with h | h
          · rcases List.mem_append.mp h with h | h
            · rcases List.mem_append.mp h with h | h
              · rcases List.mem_append.mp h with h | h
                · rcases List.mem_append.mp h with h | h
                  · rcases List.mem_append.mp h with h | h
                    · exact absurd h (by decide)
                    · exact he h
                  · exact absurd h (by decide)
                · exact hp h
              · exact absurd h (by decide)
            · exact fixed8_no_lf u.bid h
          · exact absurd h (by decide)
        · exact fixed8_no_lf u.ask h
      · exact absurd h (by decide)
    · exact intRepr_no_lf u.timestamp h
  · exact absurd h (by decide)

/-- Witness: the amended encoding facts at a concrete Binance record. -/
theorem encoding_amended_w :
    '\n' ∉ to_json (PriceUpdate.mk (lit "Binance") (lit "BTC/USDT")
      (mkRat 270001 10) (mkRat 135001 5) 1700000000123) :=
  (encoding_amended _ (by decide) (by decide)).1

/-! ## JSON-acceptor lemmas -/

/-- Decimal digit characters are none of the token-starting characters the
JSON value dispatch tests for. -/
theorem digit_char_more :
    ∀ c ∈ lit "0123456789", c ≠ '-' ∧ c ≠ 'e' ∧ c ≠ 'E' ∧ c ≠ 't' ∧ c ≠ 'f' ∧
      c ≠ 'n' ∧ c ≠ '[' ∧ c ≠ lbrace ∧ c ≠ '"' ∧ isJsonWs c = false := by decide

/-- A digit run stops exactly at the first non-digit. -/
theorem digitsRun_all :
    ∀ (ds : List Char) (c : Char) (r : List Char),
      (∀ x ∈ ds, x.isDigit = true) → c.isDigit = false →
      digitsRun (ds ++ c :: r) = c :: r := by
  intro ds
  induction ds with
  | nil => intro c r _ hc; simp [digitsRun, hc]
  | cons d ds ih =>
    intro c r h hc
    rw [List.cons_append, digitsRun, if_pos (h d (by simp))]
    exact ih c r (fun x hx => h x (by simp [hx])) hc

/-- A string body made of clean characters ends at the closing quote. -/
theorem stringBody_clean :
    ∀ s : List Char, cleanJsonStr s → ∀ r, stringBody (s ++ '"' :: r) = some r := by
  intro s
  induction s with
  | nil => intro _ r; rfl
  | cons c s ih =>
    intro h r
    obtain ⟨h1, h2, h3⟩ := h c (by simp)
    rw [List.cons_append, stringBody, stringBodyAux, if_neg h1, if_neg h2,
      if_neg (show ¬(c.toNat < 32) by omega)]
    exact ih (fun x hx => h x (by simp [hx])) r

/-- The exponent scan consumes nothing when the next character is not an
exponent marker. -/
theorem expTail_other (c : Char) (r : List Char) (h1 : c ≠ 'e') (h2 : c ≠ 'E') :
    expTail (c :: r) = c :: r := by
  simp only [expTail.eq_def]
  simp [h1, h2]

/-- A digit-headed run yields the remainder after the maximal digit run. -/
theorem digitsTail_append (d : Char) (ds : List Char) (x : Char) (r : List Char)
    (hd : d.isDigit = true) (hds : ∀ y ∈ ds, y.isDigit = true)
    (hx : x.isDigit = false) :
    digitsTail (d :: ds ++ x :: r) = some (x :: r) := by
  have h := digitsRun_all ds x r hds hx
  simp [digitsTail.eq_def, hd, h]

/-- numberTail through its sign test and integer digit run. -/
theorem numberTail_eq_of (s s2 : List Char) (h1 : s.head? ≠ some '-')
    (h2 : digitsTail s = some s2) : numberTail s = fracTail s2 := by
  rw [numberTail, if_neg h1, h2]

/-- A leading minus sign is skipped by the number scan when the remainder
does not itself start with a minus. -/
theorem numberTail_neg (s : List Char) (h : s.head? ≠ some '-') :
    numberTail ('-' :: s) = numberTail s := by
  rw [numberTail, numberTail, if_pos (by simp), if_neg h]
  rfl

/-- The fraction scan on a dot followed by a digit run. -/
theorem fracTail_dot (r2 s3 : List Char) (h : digitsTail r2 = some s3) :
    fracTail ('.' :: r2) = some (expTail s3) := by
  rw [fracTail, if_pos rfl, h]

/-- The fraction scan consumes nothing at a non-dot character. -/
theorem fracTail_other (c : Char) (r2 : List Char) (h : c ≠ '.') :
    fracTail (c :: r2) = some (expTail (c :: r2)) := by
  rw [fracTail, if_neg h]

/-- A number token of bare digits followed by a non-number character. -/
theorem numberTail_digits (ds : List Char) (hne : ds ≠ [])
    (hd : ∀ x ∈ ds, x ∈ lit "0123456789") (c : Char) (r : List Char)
    (hc : c.isDigit = false) (hdot : c ≠ '.') (he : c ≠ 'e') (hE : c ≠ 'E') :
    numberTail (ds ++ c :: r) = some (c :: r) := by
  rcases ds with _ | ⟨d, ds⟩
  · exact absurd rfl hne
  have hdig : d.isDigit = true := (digit_char_props d (hd d (by simp))).1
  have hdm : d ≠ '-' := (digit_char_more d (hd d (by simp))).1
  have hds : ∀ x ∈ ds, x.isDigit = true :=
    fun x hx => (digit_char_props x (hd x (by simp [hx]))).1
  rw [numberTail_eq_of _ _ (by simp [hdm]) (digitsTail_append d ds c r hdig hds hc),
    fracTail_other c r hdot, expTail_other c r he hE]

/-- A number token of digits, a dot, more digits, then a non-number
character. -/
theorem numberTail_digits_dot (ds pads : List Char) (hne : ds ≠ [])
    (hd : ∀ x ∈ ds, x ∈ lit "0123456789") (hpne : pads ≠ [])
    (hpd : ∀ x ∈ pads, x ∈ lit "0123456789") (c : Char) (r : List Char)
    (hc : c.isDigit = false) (he : c ≠ 'e') (hE : c ≠ 'E') :
    numberTail (ds ++ '.' :: (pads ++ c :: r)) = some (c :: r) := by
  rcases ds with _ | ⟨d, ds⟩
  · exact absurd rfl hne
  rcases pads with _ | ⟨p, ps⟩
  · exact absurd rfl hpne
  have hdig : d.isDigit = true := (digit_char_props d (hd d (by simp))).1
  have hdm : d ≠ '-' := (digit_char_more d (hd d (by simp))).1
  have hds : ∀ x ∈ ds, x.isDigit = true :=
    fun x hx => (digit_char_props x (hd x (by simp [hx]))).1
  have hpdig : p.isDigit = true := (digit_char_props p (hpd p (by simp))).1
  have hps : ∀ x ∈ ps, x.isDigit = true :=
    fun x hx => (digit_char_props x (hpd x (by simp [hx]))).1
  rw [numberTail_eq_of _ _ (by simp [hdm])
      (digitsTail_append d ds '.' (p :: ps ++ c :: r) hdig hds (by decide)),
    fracTail_dot _ _ (digitsTail_append p ps c r hpdig hps hc),
    expTail_other c r he hE]

/-- The rendering of a natural number starts with a digit and contains
only digits. -/
theorem natRepr_cons (n : Nat) :
    ∃ d ds, natRepr n = d :: ds ∧ d ∈ lit "0123456789" ∧
      ∀ x ∈ ds, x ∈ lit "0123456789" := by
  rcases hn : natRepr n with _ | ⟨d, ds⟩
  · exact absurd hn (natRepr_ne_nil n)
  · refine ⟨d, ds, rfl, ?_, ?_⟩
    · exact mem_natRepr (show d ∈ natRepr n by rw [hn]; simp)
    · intro x hx
      exact mem_natRepr (show x ∈ natRepr n by rw [hn]; simp [hx])

/-- A nonzero-width padded digit block is nonempty. -/
theorem natDigitsPadded_ne_nil (k B : Nat) (hk : k ≠ 0) :
    natDigitsPadded k B ≠ [] := by
  intro h
  have hl := length_natDigitsPadded k B
  rw [h] at hl
  exact hk hl.symm

/-- The value dispatch on a leading quote parses a string body. -/
theorem pv_string (f : Nat) (s : List Char) :
    parseRun (f + 1) PMode.val ('"' :: s) = stringBody s := rfl

/-- The value dispatch on a brace followed by a quote enters the member
loop. -/
theorem pv_object (f : Nat) (s : List Char) :
    parseRun (f + 1) PMode.val (lbrace :: ('"' :: s)) =
      parseRun f PMode.objMember ('"' :: s) := rfl

/-- The value dispatch falls through to the number scan on any character
that opens no other token. -/
theorem val_number (f : Nat) (c : Char) (s : List Char) (hws : isJsonWs c = false)
    (h1 : c ≠ lbrace) (h2 : c ≠ '[') (h3 : c ≠ '"') (h4 : c ≠ 't') (h5 : c ≠ 'f')
    (h6 : c ≠ 'n') :
    parseRun (f + 1) PMode.val (c :: s) = numberTail (c :: s) := by
  simp [parseRun, List.dropWhile_cons, hws, h1, h2, h3, h4, h5, h6]

/-- One object member: the key string, the colon, the member value, then
the comma/close dispatch on what the value leaves. -/
theorem objMember_step (f : Nat) (body rest Y : List Char)
    (hsb : stringBody body = some (':' :: rest))
    (hv : parseRun f PMode.val rest = some Y) :
    parseRun (f + 1) PMode.objMember ('"' :: body) =
      match Y.dropWhile isJsonWs with
      | [] => none
      | c5 :: r5 =>
        if c5 = ',' then parseRun f PMode.objMember r5
        else if c5 = rbrace then some r5
        else none := by
  simp [parseRun, List.dropWhile_cons, isJsonWs, hsb, hv]

/-- A signed fixed-decimal token (sign, digits, dot, padded digits)
followed by a comma or closing brace is consumed as one number value. -/
theorem pv_decimal (f : Nat) (sgn : List Char) (hsgn : sgn = [] ∨ sgn = ['-'])
    (A k B : Nat) (hk : k ≠ 0) (c : Char) (r : List Char)
    (hc : c = ',' ∨ c = rbrace) :
    parseRun (f + 1) PMode.val (sgn ++ natRepr A ++ '.' :: natDigitsPadded k B ++ c :: r)
      = some (c :: r) := by
  have hcf : c.isDigit = false ∧ c ≠ 'e' ∧ c ≠ 'E' := by
    rcases hc with rfl | rfl <;> exact ⟨by decide, by decide, by decide⟩
  obtain ⟨hcd, hce, hcE⟩ := hcf
  obtain ⟨d, ds, hnr, hd1, hds⟩ := natRepr_cons A
  obtain ⟨hdm, _, _, hdt, hdf, hdn, hdbr, hdlb, hdq, hdws⟩ := digit_char_more d hd1
  have hpadne := natDigitsPadded_ne_nil k B hk
  have hpadmem : ∀ x ∈ natDigitsPadded k B, x ∈ lit "0123456789" :=
    fun x hx => mem_natDigitsPadded k B hx
  rcases hsgn with rfl | rfl
  · rw [List.nil_append, hnr]
    rw [show (d :: ds ++ '.' :: natDigitsPadded k B ++ c :: r) =
        d :: (ds ++ '.' :: (natDigitsPadded k B ++ c :: r)) from by
      simp [List.cons_append, List.append_assoc]]
    rw [val_number f d _ hdws hdlb hdbr hdq hdt hdf hdn]
    exact numberTail_digits_dot (d :: ds) (natDigitsPadded k B) (by simp)
      (by rw [← hnr]; exact fun x hx => mem_natRepr hx) hpadne hpadmem c r hcd hce hcE
  · rw [show (['-'] ++ natRepr A ++ '.' :: natDigitsPadded k B ++ c :: r) =
        '-' :: (natRepr A ++ '.' :: (natDigitsPadded k B ++ c :: r)) from by
      simp [List.cons_append, List.append_assoc]]
    rw [val_number f '-' _ (by decide) (by decide) (by decide) (by decide) (by decide)
      (by decide) (by decide)]
    rw [numberTail_neg _ (by rw [hnr]; simp [hdm])]
    exact numberTail_digits_dot (natRepr A) (natDigitsPadded k B) (natRepr_ne_nil A)
      (fun x hx => mem_natRepr hx) hpadne hpadmem c r hcd hce hcE

/-- The fixed-8 price rendering followed by a comma or closing brace is
consumed as one number value. -/
theorem pv_fixed8 (f : Nat) (q : ℚ) (c : Char) (r : List Char)
    (hc : c = ',' ∨ c = rbrace) :
    parseRun (f + 1) PMode.val (fixed8 q ++ c :: r) = some (c :: r) := by
  simp only [fixed8]
  exact pv_decimal f (if q.num < 0 then ['-'] else []) (by split <;> simp) _ 8 _
    (by norm_num) c r hc

/-- The integer timestamp rendering followed by a comma or closing brace is
consumed as one number value. -/
theorem pv_integer (f : Nat) (z : Int) (c : Char) (r : List Char)
    (hc : c = ',' ∨ c = rbrace) :
    parseRun (f + 1) PMode.val (intRepr z ++ c :: r) = some (c :: r) := by
  have hcf : c.isDigit = false ∧ c ≠ '.' ∧ c ≠ 'e' ∧ c ≠ 'E' := by
    rcases hc with rfl | rfl <;> exact ⟨by decide, by decide, by decide, by decide⟩
  obtain ⟨hcd, hcdot, hce, hcE⟩ := hcf
  obtain ⟨d, ds, hnr, hd1, hds⟩ := natRepr_cons z.natAbs
  obtain ⟨hdm, _, _, hdt, hdf, hdn, hdbr, hdlb, hdq, hdws⟩ := digit_char_more d hd1
  rw [intRepr]
  split
  · rw [List.cons_append]
    rw [val_number f '-' _ (by decide) (by decide) (by decide) (by decide) (by decide)
      (by decide) (by decide)]
    rw [numberTail_neg _ (by rw [hnr]; simp [hdm])]
    exact numberTail_digits (natRepr z.natAbs) (natRepr_ne_nil _)
      (fun x hx => mem_natRepr hx) c r hcd hcdot hce hcE
  · rw [hnr, List.cons_append]
    rw [val_number f d _ hdws hdlb hdbr hdq hdt hdf hdn]
    exact numberTail_digits (d :: ds) (by simp)
      (by rw [← hnr]; exact fun x hx => mem_natRepr hx) c r hcd hcdot hce hcE

/-- The JSON acceptor consumes the whole to_json output of any record
whose string fields are clean, with eight units of fuel to spare beyond
any bound: one for the object, one per member and one per member value. -/
theorem parseRun_tojson (g : Nat) (u : PriceUpdate)
    (he : cleanJsonStr u.exchange) (hp : cleanJsonStr u.pair) :
    parseRun (g + 8) PMode.val (to_json u) = some [] := by
  have hshape : to_json u = lbrace :: ('"' :: (lit "exchange\":\"" ++ (u.exchange ++
      (lit "\",\"pair\":\"" ++ (u.pair ++ (lit "\",\"bid\":" ++ (fixed8 u.bid ++
      (lit ",\"ask\":" ++ (fixed8 u.ask ++ (lit ",\"timestamp\":" ++
      (intRepr u.timestamp ++ [rbrace]))))))))))) := by
    simp only [to_json, List.append_assoc]
    rfl
  have hv1 : parseRun (g + 6) PMode.val ('"' :: (u.exchange ++
      (lit "\",\"pair\":\"" ++ (u.pair ++ (lit "\",\"bid\":" ++ (fixed8 u.bid ++
      (lit ",\"ask\":" ++ (fixed8 u.ask ++ (lit ",\"timestamp\":" ++
      (intRepr u.timestamp ++ [rbrace])))))))))) =
      some (lit ",\"pair\":\"" ++ (u.pair ++ (lit "\",\"bid\":" ++ (fixed8 u.bid ++
      (lit ",\"ask\":" ++ (fixed8 u.ask ++ (lit ",\"timestamp\":" ++
      (intRepr u.timestamp ++ [rbrace])))))))) :=
    (pv_string (g + 5) _).trans (stringBody_clean u.exchange he
      (lit ",\"pair\":\"" ++ (u.pair ++ (lit "\",\"bid\":" ++ (fixed8 u.bid ++
      (lit ",\"ask\":" ++ (fixed8 u.ask ++ (lit ",\"timestamp\":" ++
      (intRepr u.timestamp ++ [rbrace])))))))))
  have hm1 : parseRun (g + 7) PMode.objMember ('"' :: (lit "exchange\":\"" ++
      (u.exchange ++ (lit "\",\"pair\":\"" ++ (u.pair ++ (lit "\",\"bid\":" ++
      (fixed8 u.bid ++ (lit ",\"ask\":" ++ (fixed8 u.ask ++ (lit ",\"timestamp\":" ++
      (intRepr u.timestamp ++ [rbrace]))))))))))) =
      parseRun (g + 6) PMode.objMember ('"' :: (lit "pair\":\"" ++ (u.pair ++
      (lit "\",\"bid\":" ++ (fixed8 u.bid ++ (lit ",\"ask\":" ++ (fixed8 u.ask ++
      (lit ",\"timestamp\":" ++ (intRepr u.timestamp ++ [rbrace]))))))))) :=
    (objMember_step (g + 6) _ _ _ (by rfl) hv1).trans rfl
  have hv2 : parseRun (g + 5) PMode.val ('"' :: (u.pair ++ (lit "\",\"bid\":" ++
      (fixed8 u.bid ++ (lit ",\"ask\":" ++ (fixed8 u.ask ++ (lit ",\"timestamp\":" ++
      (intRepr u.timestamp ++ [rbrace])))))))) =
      some (lit ",\"bid\":" ++ (fixed8 u.bid ++ (lit ",\"ask\":" ++ (fixed8 u.ask ++
      (lit ",\"timestamp\":" ++ (intRepr u.timestamp ++ [rbrace])))))) :=
    (pv_string (g + 4) _).trans (stringBody_clean u.pair hp
      (lit ",\"bid\":" ++ (fixed8 u.bid ++ (lit ",\"ask\":" ++ (fixed8 u.ask ++
      (lit ",\"timestamp\":" ++ (intRepr u.timestamp ++ [rbrace])))))))
  have hm2 : parseRun (g + 6) PMode.objMember ('"' :: (lit "pair\":\"" ++ (u.pair ++
      (lit "\",\"bid\":" ++ (fixed8 u.bid ++ (lit ",\"ask\":" ++ (fixed8 u.ask ++
      (lit ",\"timestamp\":" ++ (intRepr u.timestamp ++ [rbrace]))))))))) =
      parseRun (g + 5) PMode.objMember ('"' :: (lit "bid\":" ++ (fixed8 u.bid ++
      (lit ",\"ask\":" ++ (fixed8 u.ask ++ (lit ",\"timestamp\":" ++
      (intRepr u.timestamp ++ [rbrace]))))))) :=
    (objMember_step (g + 5) _ _ _ (by rfl) hv2).trans rfl
  have hv3 : parseRun (g + 4) PMode.val (fixed8 u.bid ++ (lit ",\"ask\":" ++
      (fixed8 u.ask ++ (lit ",\"timestamp\":" ++ (intRepr u.timestamp ++ [rbrace]))))) =
      some (lit ",\"ask\":" ++ (fixed8 u.ask ++ (lit ",\"timestamp\":" ++
      (intRepr u.timestamp ++ [rbrace])))) :=
    pv_fixed8 (g + 3) u.bid ',' (lit "\"ask\":" ++ (fixed8 u.ask ++
      (lit ",\"timestamp\":" ++ (intRepr u.timestamp ++ [rbrace])))) (Or.inl rfl)
  have hm3 : parseRun (g + 5) PMode.objMember ('"' :: (lit "bid\":" ++ (fixed8 u.bid ++
      (lit ",\"ask\":" ++ (fixed8 u.ask ++ (lit ",\"timestamp\":" ++
      (intRepr u.timestamp ++ [rbrace]))))))) =
      parseRun (g + 4) PMode.objMember ('"' :: (lit "ask\":" ++ (fixed8 u.ask ++
      (lit ",\"timestamp\":" ++ (intRepr u.timestamp ++ [rbrace]))))) :=
    (objMember_step (g + 4) _ _ _ (by rfl) hv3).trans rfl
  have hv4 : parseRun (g + 3) PMode.val (fixed8 u.ask ++ (lit ",\"timestamp\":" ++
      (intRepr u.timestamp ++ [rbrace]))) =
      some (lit ",\"timestamp\":" ++ (intRepr u.timestamp ++ [rbrace])) :=
    pv_fixed8 (g + 2) u.ask ',' (lit "\"timestamp\":" ++
      (intRepr u.timestamp ++ [rbrace])) (Or.inl rfl)
  have hm4 : parseRun (g + 4) PMode.objMember ('"' :: (lit "ask\":" ++ (fixed8 u.ask ++
      (lit ",\"timestamp\":" ++ (intRepr u.timestamp ++ [rbrace]))))) =
      parseRun (g + 3) PMode.objMember ('"' :: (lit "timestamp\":" ++
      (intRepr u.timestamp ++ [rbrace]))) :=
    (objMember_step (g + 3) _ _ _ (by rfl) hv4).trans rfl
  have hv5 : parseRun (g + 2) PMode.val (intRepr u.timestamp ++ [rbrace]) =
      some [rbrace] :=
    pv_integer (g + 1) u.timestamp rbrace [] (Or.inr rfl)
  have hm5 : parseRun (g + 3) PMode.objMember ('"' :: (lit "timestamp\":" ++
      (intRepr u.timestamp ++ [rbrace]))) = some [] :=
    (objMember_step (g + 2) _ _ _ (by rfl) hv5).trans rfl
  rw [hshape, show g + 8 = (g + 7) + 1 from rfl, pv_object, hm1, hm2, hm3, hm4, hm5]

/-! ## C10 : no escaping in to_json -/

/-- Counterexample to C10 as stated: a record whose fields contain no
double quote and no backslash can still fail to serialize to well-formed
JSON, because to_json also leaves control characters unescaped — RFC 8259
forbids a raw newline inside a string literal, and the acceptor rejects
the output at every fuel. -/
theorem json_escaping_cex :
    (∀ c ∈ lit "A\nB", c ≠ '"' ∧ c ≠ '\\') ∧
    (∀ c ∈ lit "BTC/USDT", c ≠ '"' ∧ c ≠ '\\') ∧
    ¬ JsonDoc (to_json (PriceUpdate.mk (lit "A\nB") (lit "BTC/USDT")
      (mkRat 1 1) (mkRat 2 1) 0)) := by
  refine ⟨by decide, by decide, ?_⟩
  rintro ⟨f, r, h1, h2⟩
  rcases f with _ | _ | _ | f
  · exact Option.noConfusion h1
  · rw [show parseRun 1 PMode.val (to_json (PriceUpdate.mk (lit "A\nB")
      (lit "BTC/USDT") (mkRat 1 1) (mkRat 2 1) 0)) = none from rfl] at h1
    exact Option.noConfusion h1
  · rw [show parseRun 2 PMode.val (to_json (PriceUpdate.mk (lit "A\nB")
      (lit "BTC/USDT") (mkRat 1 1) (mkRat 2 1) 0)) = none from rfl] at h1
    exact Option.noConfusion h1
  · rw [show parseRun (f + 3) PMode.val (to_json (PriceUpdate.mk (lit "A\nB")
      (lit "BTC/USDT") (mkRat 1 1) (mkRat 2 1) 0)) = none from rfl] at h1
    exact Option.noConfusion h1

/-- C10 amended: to_json escapes nothing, so (a) every record whose
exchange and pair contain no double-quote, backslash, or control
character serializes to a parseable JSON document, while (b) a
double-quote inside the exchange field breaks the output beyond repair:
no fuel makes the acceptor take it. -/
theorem json_escaping_amended :
    (∀ u : PriceUpdate, cleanJsonStr u.exchange → cleanJsonStr u.pair →
      JsonDoc (to_json u)) ∧
    ¬ JsonDoc (to_json (PriceUpdate.mk (lit "A\"B") (lit "BTC/USDT")
      (mkRat 1 1) (mkRat 2 1) 0)) := by
  constructor
  · intro u he hp
    exact ⟨0 + 8, [], parseRun_tojson 0 u he hp, rfl⟩
  · rintro ⟨f, r, h1, h2⟩
    rcases f with _ | _ | _ | f
    · exact Option.noConfusion h1
    · rw [show parseRun 1 PMode.val (to_json (PriceUpdate.mk (lit "A\"B")
        (lit "BTC/USDT") (mkRat 1 1) (mkRat 2 1) 0)) = none from rfl] at h1
      exact Option.noConfusion h1
    · rw [show parseRun 2 PMode.val (to_json (PriceUpdate.mk (lit "A\"B")
        (lit "BTC/USDT") (mkRat 1 1) (mkRat 2 1) 0)) = none from rfl] at h1
      exact Option.noConfusion h1
    · rw [show parseRun (f + 3) PMode.val (to_json (PriceUpdate.mk (lit "A\"B")
        (lit "BTC/USDT") (mkRat 1 1) (mkRat 2 1) 0)) = none from rfl] at h1
      exact Option.noConfusion h1

/-- Witness: the output for a clean concrete Binance record is a JSON
document. -/
theorem json_escaping_amended_w :
    JsonDoc (to_json (PriceUpdate.mk (lit "Binance") (lit "BTC/USDT")
      (mkRat 270001 10) (mkRat 135001 5) 1700000000123)) :=
  json_escaping_amended.1 _ (by unfold cleanJsonStr; decide) (by unfold cleanJsonStr; decide)

end Cpfyp
